import Mathlib

/-!
Verification development for the FamilyCalendar iCal ingestion pipeline.

The embedded code lives in:
* `src/utils/icalParser.ts` — `parseICalData`, `parseEventProperty`,
  `extractDateFromLine`, `createCalendarEvent`;
* `src/components/WeeklyView.tsx` — `refreshAllCalendars` (throttle,
  delete-all-imported, per-feed fetch/parse loop);
* the app reducer (`appReducer`) — `ADD_EVENT` / `DELETE_EVENT` cases.

JavaScript strings are modelled as `List Char`; `null`/`undefined` as
`Option`; JS `Date` values as `Option Int` (milliseconds since the Unix
epoch, `none` standing for an Invalid Date / NaN time value).
-/

namespace FamilyCalendar

/-- Character class of JavaScript string whitespace (the set trimmed by
`String.prototype.trim`): tab, LF, VT, FF, CR, space, NBSP, the Unicode
space separators, line/paragraph separators and the BOM. -/
def jsWhitespace (c : Char) : Bool :=
  let n := c.toNat
  n == 0x9 || n == 0xA || n == 0xB || n == 0xC || n == 0xD || n == 0x20 ||
  n == 0xA0 || n == 0x1680 || (0x2000 ≤ n && n ≤ 0x200A) || n == 0x2028 ||
  n == 0x2029 || n == 0x202F || n == 0x205F || n == 0x3000 || n == 0xFEFF

/-- Character class of the regex `\d`: the ASCII digits `0`–`9`. -/
def isDigitChar (c : Char) : Bool :=
  decide (48 ≤ c.toNat ∧ c.toNat ≤ 57)

/-- Model of `String.prototype.trim`: drop JS whitespace from both ends. -/
def trimChars (cs : List Char) : List Char :=
  ((cs.dropWhile jsWhitespace).reverse.dropWhile jsWhitespace).reverse

/-- Model of `icalData.split('\n')`: split at every `'\n'`, keeping empty
pieces, so `n` newline characters yield `n + 1` lines. -/
def splitNl : List Char → List (List Char)
  | [] => [[]]
  | c :: rest =>
    if c = '\n' then [] :: splitNl rest
    else
      match splitNl rest with
      | [] => [[c]]
      | l :: ls => (c :: l) :: ls

/-- Model of `String.prototype.includes` for a single character. -/
def containsChar (cs : List Char) (c : Char) : Bool :=
  cs.any (fun d => d == c)

/-- One global-regex replacement pass for a two-character pattern
`p1 p2` replaced by the single character `r`, scanning left to right over
non-overlapping occurrences — the shape of `.replace(/\\,/g, ',')`,
`.replace(/\\;/g, ';')` and `.replace(/\\\\/g, '\\')`. -/
def unescapePair (p1 p2 r : Char) : List Char → List Char
  | [] => []
  | [c] => [c]
  | c1 :: c2 :: rest =>
    if c1 = p1 ∧ c2 = p2 then r :: unescapePair p1 p2 r rest
    else c1 :: unescapePair p1 p2 r (c2 :: rest)

/-- The unescaping chain applied to SUMMARY, DESCRIPTION and LOCATION
values: `.replace(/\\,/g, ',').replace(/\\;/g, ';').replace(/\\\\/g, '\\')`. -/
def unescapeText (cs : List Char) : List Char :=
  unescapePair '\\' '\\' '\\' (unescapePair '\\' ';' ';' (unescapePair '\\' ',' ',' cs))

/-- Numeric value of one ASCII digit character. -/
def digitVal (c : Char) : Nat := c.toNat - 48

/-- Numeric value of a two-digit field. -/
def val2 (a b : Char) : Nat := 10 * digitVal a + digitVal b

/-- Numeric value of a four-digit field. -/
def val4 (a b c d : Char) : Nat :=
  1000 * digitVal a + 100 * digitVal b + 10 * digitVal c + digitVal d

/-- Gregorian leap-year rule. -/
def isLeapYear (y : Nat) : Bool :=
  (y % 4 == 0 && y % 100 != 0) || y % 400 == 0

/-- Number of days in a month (`m` is 1-based). -/
def daysInMonth (y m : Nat) : Nat :=
  if m == 2 then (if isLeapYear y then 29 else 28)
  else if m == 4 || m == 6 || m == 9 || m == 11 then 30
  else 31

/-- Days from the civil date `y-m-d` to 1970-01-01 (negative before the
epoch); the standard era-based civil-calendar computation. -/
def daysFromCivil (y m d : Nat) : Int :=
  let yy : Int := (y : Int) - (if m ≤ 2 then 1 else 0)
  let era : Int := (if 0 ≤ yy then yy else yy - 399) / 400
  let yoe : Int := yy - era * 400
  let mp : Int := ((m : Int) + 9) % 12
  let doy : Int := (153 * mp + 2) / 5 + (d : Int) - 1
  let doe : Int := yoe * 365 + yoe / 4 - yoe / 100 + doy
  era * 146097 + doe - 719468

/-- Model of `new Date(s).getTime()` (ECMAScript Date Time String Format)
restricted to the two string shapes `extractDateFromLine` can produce:
`YYYY-MM-DD` (UTC midnight) and `YYYY-MM-DDTHH:MM:SSZ`. Field values out
of calendar range give an Invalid Date (`none`), as does any other
string: no other shape ever reaches `new Date` in this program. -/
def jsParseDate : List Char → Option Int
  | [y1, y2, y3, y4, '-', m1, m2, '-', d1, d2] =>
    if [y1, y2, y3, y4, m1, m2, d1, d2].all isDigitChar then
      let y := val4 y1 y2 y3 y4
      let m := val2 m1 m2
      let d := val2 d1 d2
      if 1 ≤ m ∧ m ≤ 12 ∧ 1 ≤ d ∧ d ≤ daysInMonth y m then
        some (daysFromCivil y m d * 86400000)
      else none
    else none
  | [y1, y2, y3, y4, '-', m1, m2, '-', d1, d2, 'T',
     h1, h2, ':', mi1, mi2, ':', s1, s2, 'Z'] =>
    if [y1, y2, y3, y4, m1, m2, d1, d2, h1, h2, mi1, mi2, s1, s2].all isDigitChar then
      let y := val4 y1 y2 y3 y4
      let m := val2 m1 m2
      let d := val2 d1 d2
      let hh := val2 h1 h2
      let mi := val2 mi1 mi2
      let ss := val2 s1 s2
      if 1 ≤ m ∧ m ≤ 12 ∧ 1 ≤ d ∧ d ≤ daysInMonth y m ∧
         (hh ≤ 23 ∨ (hh = 24 ∧ mi = 0 ∧ ss = 0)) ∧ mi ≤ 59 ∧ ss ≤ 59 then
        some (daysFromCivil y m d * 86400000 +
              ((hh : Int) * 3600000 + (mi : Int) * 60000 + (ss : Int) * 1000))
      else none
    else none
  | _ => none

/-- Take up to `n` leading ASCII digits, returning them with the rest —
the greedy `\d{0,6}` piece of the date-token regex. -/
def takeDigitsUpTo : Nat → List Char → List Char × List Char
  | _, [] => ([], [])
  | 0, rest => ([], rest)
  | n + 1, c :: rest =>
    if isDigitChar c then
      let (ds, r) := takeDigitsUpTo n rest
      (c :: ds, r)
    else ([], c :: rest)

/-- Attempt of the regex `\d{8}T?\d{0,6}Z?` anchored at the head of `cs`:
it succeeds exactly when eight digits start here, and then consumes
greedily an optional `T`, up to six digits and an optional `Z`. -/
def matchDateToken (cs : List Char) : Option (List Char) :=
  let ds8 := cs.take 8
  if ds8.length = 8 ∧ ds8.all isDigitChar then
    let rest1 := cs.drop 8
    let (tPart, rest2) :=
      match rest1 with
      | 'T' :: r => (['T'], r)
      | r => (([] : List Char), r)
    let (ds, rest3) := takeDigitsUpTo 6 rest2
    let zPart :=
      match rest3 with
      | 'Z' :: _ => ['Z']
      | _ => ([] : List Char)
    some (ds8 ++ tPart ++ ds ++ zPart)
  else none

/-- Leftmost match of `\d{8}T?\d{0,6}Z?` in a line, as
`line.match(/(\d{8}T?\d{0,6}Z?)/)` finds it. -/
def findDateToken : List Char → Option (List Char)
  | [] => none
  | c :: rest =>
    match matchDateToken (c :: rest) with
    | some t => some t
    | none => findDateToken rest

/-- Attempt of the regex `\d{4}-\d{2}-\d{2}T\d{2}:\d{2}:\d{2}` anchored at
the head of `cs`. -/
def matchIsoAt (cs : List Char) : Option (List Char) :=
  match cs with
  | y1 :: y2 :: y3 :: y4 :: '-' :: m1 :: m2 :: '-' :: d1 :: d2 :: 'T' ::
    h1 :: h2 :: ':' :: mi1 :: mi2 :: ':' :: s1 :: s2 :: _ =>
    if [y1, y2, y3, y4, m1, m2, d1, d2, h1, h2, mi1, mi2, s1, s2].all isDigitChar then
      some [y1, y2, y3, y4, '-', m1, m2, '-', d1, d2, 'T',
            h1, h2, ':', mi1, mi2, ':', s1, s2]
    else none
  | _ => none

/-- Leftmost match of the secondary ISO pattern in a line. -/
def findIso : List Char → Option (List Char)
  | [] => none
  | c :: rest =>
    match matchIsoAt (c :: rest) with
    | some t => some t
    | none => findIso rest

/-- The `isoMatch` fallback at the end of `extractDateFromLine`: an
already-ISO-like `YYYY-MM-DDTHH:MM:SS` substring gets a `Z` appended. -/
def isoFallback (line : List Char) : Option (List Char) :=
  match findIso line with
  | some t => some (t ++ ['Z'])
  | none => none

/-- Model of `extractDateFromLine`: find the first `\d{8}T?\d{0,6}Z?`
token; a 15-character token containing `T` is reformatted via the fixed
substring positions `(0,4) (4,6) (6,8) (9,11) (11,13) (13,15)` to
`YYYY-MM-DDTHH:MM:SSZ`; an 8-character token is reformatted to
`YYYY-MM-DD`; any other token length falls through to the ISO fallback on
the whole line, as does absence of a token. -/
def extractDateFromLine (line : List Char) : Option (List Char) :=
  match findDateToken line with
  | some dateStr =>
    if dateStr.length = 15 ∧ containsChar dateStr 'T' then
      some (dateStr.take 4 ++ ['-'] ++ (dateStr.drop 4).take 2 ++ ['-'] ++
            (dateStr.drop 6).take 2 ++ ['T'] ++ (dateStr.drop 9).take 2 ++
            [':'] ++ (dateStr.drop 11).take 2 ++ [':'] ++ (dateStr.drop 13).take 2 ++
            ['Z'])
    else if dateStr.length = 8 then
      some (dateStr.take 4 ++ ['-'] ++ (dateStr.drop 4).take 2 ++ ['-'] ++
            (dateStr.drop 6).take 2)
    else isoFallback line
  | none => isoFallback line

/-- Model of `Partial<ICalEvent>`: the transient accumulator built up
between `BEGIN:VEVENT` and `END:VEVENT`. The source field `end` is named
`endRaw` here (`end` is reserved in Lean). -/
structure ICalEvent where
  summary : Option (List Char) := none
  start : Option (List Char) := none
  endRaw : Option (List Char) := none
  description : Option (List Char) := none
  location : Option (List Char) := none
  allDay : Option Bool := none
deriving DecidableEq, Repr

/-- JS truthiness of an optional string: `undefined` and `""` are falsy. -/
def truthy : Option (List Char) → Bool
  | none => false
  | some s => s != []

/-- Model of `parseEventProperty`, applied to an already-trimmed line.
`substring(n)` is `List.drop n`. -/
def parseEventProperty (line : List Char) (event : ICalEvent) : ICalEvent :=
  if "SUMMARY:".data.isPrefixOf line then
    { event with summary := some (unescapeText (line.drop 8)) }
  else if "DTSTART".data.isPrefixOf line then
    match extractDateFromLine line with
    | some dateStr =>
      { event with start := some dateStr,
                   allDay := some (!containsChar dateStr 'T') }
    | none => event
  else if "DTEND".data.isPrefixOf line then
    match extractDateFromLine line with
    | some dateStr => { event with endRaw := some dateStr }
    | none => event
  else if "DESCRIPTION:".data.isPrefixOf line then
    { event with description := some (unescapeText (line.drop 12)) }
  else if "LOCATION:".data.isPrefixOf line then
    { event with location := some (unescapeText (line.drop 9)) }
  else event

/-- Model of the app's `CalendarEvent`. `startDate` is always a valid
time value (the code discards events whose start is NaN), while `endDate`
may be an Invalid Date (`none`): the code never validates it. `source` is
the TS string union `'local' | 'ical' | 'imported'`, optional. -/
structure CalendarEvent where
  id : List Char
  title : List Char
  startDate : Int
  endDate : Option Int
  allDay : Bool
  description : Option (List Char) := none
  location : Option (List Char) := none
  color : List Char
  source : Option (List Char) := none
deriving DecidableEq, Repr

/-- Model of `createCalendarEvent`: parse the start, default the end to
start + 1 hour only when no end was captured, discard on invalid start.
The source id combines `Date.now()` and `Math.random()`
(`ical_${Date.now()}_${...}`); neither effect exists in a pure embedding,
so the id is modelled by its constant prefix alone — no claim depends on
the id of a parsed event. -/
def createCalendarEvent (icalEvent : ICalEvent) : Option CalendarEvent :=
  let startDate := jsParseDate (icalEvent.start.getD [])
  match startDate with
  | none => none
  | some st =>
    some { id := "ical_".data
           title := icalEvent.summary.getD []
           startDate := st
           endDate := (match icalEvent.endRaw with
                       | some e => jsParseDate e
                       | none => some (st + 60 * 60 * 1000))
           allDay := (icalEvent.allDay.getD false)
           description := icalEvent.description
           location := icalEvent.location
           color := "#8b5cf6".data
           source := some "ical".data }

/-- Events pushed when an `END:VEVENT` line closes a block: the
accumulator must have a truthy summary and start, and
`createCalendarEvent` must not discard it. -/
def finalizeEvent (currentEvent : ICalEvent) : List CalendarEvent :=
  if truthy currentEvent.summary && truthy currentEvent.start then
    match createCalendarEvent currentEvent with
    | some ev => [ev]
    | none => []
  else []

/-- One iteration of the `parseICalData` loop: trim the raw line, then
dispatch on `BEGIN:VEVENT` / `END:VEVENT` / in-event property lines.
Returns the events emitted by this line together with the next
`(inEvent, currentEvent)` state. -/
def stepLine (rawLine : List Char) (inEvent : Bool) (currentEvent : ICalEvent) :
    List CalendarEvent × Bool × ICalEvent :=
  let line := trimChars rawLine
  if line = "BEGIN:VEVENT".data then ([], true, {})
  else if line = "END:VEVENT".data ∧ inEvent then
    (finalizeEvent currentEvent, false, {})
  else if inEvent then
    ([], true, parseEventProperty line currentEvent)
  else ([], inEvent, currentEvent)

/-- The events emitted while running the parse loop over a list of raw
lines from a given machine state; a trailing open accumulator is
discarded, exactly as the source loop simply ends. -/
def runLines : List (List Char) → Bool → ICalEvent → List CalendarEvent
  | [], _, _ => []
  | l :: ls, inEvent, currentEvent =>
    let s := stepLine l inEvent currentEvent
    s.1 ++ runLines ls s.2.1 s.2.2

/-- The machine state after running the parse loop over a list of lines. -/
def runState : List (List Char) → Bool → ICalEvent → Bool × ICalEvent
  | [], inEvent, currentEvent => (inEvent, currentEvent)
  | l :: ls, inEvent, currentEvent =>
    let s := stepLine l inEvent currentEvent
    runState ls s.2.1 s.2.2

/-- The parse loop of `parseICalData` on an already-split line list,
from the initial state (`inEvent = false`, empty accumulator). -/
def parseLines (lines : List (List Char)) : List CalendarEvent :=
  runLines lines false {}

/-- Model of `parseICalData`: split on `'\n'` and run the line loop from
the initial state. -/
def parseICalData (icalData : List Char) : List CalendarEvent :=
  parseLines (splitNl icalData)

/-- Accumulator reached from folding `parseEventProperty` over the
trimmed property lines of a block. -/
def foldProps (ls : List (List Char)) (acc : ICalEvent) : ICalEvent :=
  ls.foldl (fun a l => parseEventProperty (trimChars l) a) acc

/-- The `DELETE_EVENT` case of `appReducer`: keep every event whose id
differs from the payload. -/
def deleteEvent (events : List CalendarEvent) (eventId : List Char) :
    List CalendarEvent :=
  events.filter (fun event => event.id != eventId)

/-- The `ADD_EVENT` case of `appReducer`: append the payload. -/
def addEvent (events : List CalendarEvent) (event : CalendarEvent) :
    List CalendarEvent :=
  events ++ [event]

/-- The predicate `event.source === 'ical'` used by `refreshAllCalendars`
and `refreshImport` to select the events to delete before re-inserting. -/
def isImportedEvent (event : CalendarEvent) : Bool :=
  event.source == some "ical".data

/-- The delete phase of `refreshAllCalendars`: filter the current store
for imported events, then dispatch `DELETE_EVENT` for each of them. -/
def removeAllICalEvents (events : List CalendarEvent) : List CalendarEvent :=
  (events.filter isImportedEvent).foldl
    (fun st event => deleteEvent st event.id) events

/-- The per-feed loop of `refreshAllCalendars`. Each feed is a pair of
its `enabled` flag and the outcome of `fetchICalData` + `parseICalData`
for it; the network fetch is I/O, so its outcome is supplied as an
oracle: `Except.ok` carries the parsed events, `Except.error` models a
thrown fetch/parse error, which the loop catches per feed and logs,
continuing with the next feed. -/
def refreshFeedsLoop (store : List CalendarEvent)
    (feeds : List (Bool × Except (List Char) (List CalendarEvent))) :
    List CalendarEvent :=
  feeds.foldl
    (fun st feed =>
      if feed.1 then
        match feed.2 with
        | Except.ok events => events.foldl addEvent st
        | Except.error _ => st
      else st)
    store

/-- The events inserted by one pass of the feed loop: the concatenation
of the parse results of the enabled feeds whose fetch+parse succeeded. -/
def enabledOkEvents
    (feeds : List (Bool × Except (List Char) (List CalendarEvent))) :
    List CalendarEvent :=
  (feeds.map (fun feed =>
    if feed.1 then
      match feed.2 with
      | Except.ok events => events
      | Except.error _ => []
    else [])).flatten

/-- Model of `refreshAllCalendars` in `WeeklyView.tsx`: if fewer than
30000 ms have elapsed since the last refresh, skip entirely (returning
`false`, the untouched timestamp and the untouched store: no fetch, no
parse, no dispatch); otherwise record the new timestamp, delete every
stored event with the imported origin, and run the per-feed loop.
`now` is `Date.now()`, `lastRefresh` the process-wide
`lastRefreshRef.current`. -/
def refreshAllCalendars (now lastRefresh : Int) (store : List CalendarEvent)
    (feeds : List (Bool × Except (List Char) (List CalendarEvent))) :
    Bool × Int × List CalendarEvent :=
  if now - lastRefresh < 30000 then (false, lastRefresh, store)
  else (true, now, refreshFeedsLoop (removeAllICalEvents store) feeds)

/-! ### Composition lemmas for the parse loop -/

theorem runLines_append (as bs : List (List Char)) (b : Bool) (c : ICalEvent) :
    runLines (as ++ bs) b c =
      runLines as b c ++
        runLines bs (runState as b c).1 (runState as b c).2 := by
  induction as generalizing b c with
  | nil => simp [runLines, runState]
  | cons l ls ih => simp [runLines, runState, ih]

theorem runState_append (as bs : List (List Char)) (b : Bool) (c : ICalEvent) :
    runState (as ++ bs) b c =
      runState bs (runState as b c).1 (runState as b c).2 := by
  induction as generalizing b c with
  | nil => simp [runState]
  | cons l ls ih => simp [runState, ih]

theorem stepLine_begin (l : List Char) (b : Bool) (c : ICalEvent)
    (h : trimChars l = "BEGIN:VEVENT".data) :
    stepLine l b c = ([], true, {}) := by
  simp [stepLine, h]

theorem stepLine_end (l : List Char) (c : ICalEvent)
    (h : trimChars l = "END:VEVENT".data) :
    stepLine l true c = (finalizeEvent c, false, {}) := by
  have hne : "END:VEVENT".data ≠ "BEGIN:VEVENT".data := by decide
  simp [stepLine, h, hne]

theorem stepLine_prop (l : List Char) (c : ICalEvent)
    (hb : trimChars l ≠ "BEGIN:VEVENT".data)
    (he : trimChars l ≠ "END:VEVENT".data) :
    stepLine l true c = ([], true, parseEventProperty (trimChars l) c) := by
  simp [stepLine, hb, he]

/-- Property lines inside a block emit nothing and accumulate via
`parseEventProperty`. -/
theorem run_props (ps : List (List Char)) (c : ICalEvent)
    (h : ∀ l ∈ ps, trimChars l ≠ "BEGIN:VEVENT".data ∧
                   trimChars l ≠ "END:VEVENT".data) :
    runLines ps true c = [] ∧ runState ps true c = (true, foldProps ps c) := by
  induction ps generalizing c with
  | nil => simp [runLines, runState, foldProps]
  | cons l ls ih =>
    have hl := h l (List.mem_cons_self l ls)
    have hrest : ∀ x ∈ ls, trimChars x ≠ "BEGIN:VEVENT".data ∧
        trimChars x ≠ "END:VEVENT".data :=
      fun x hx => h x (List.mem_cons_of_mem l hx)
    have hstep := stepLine_prop l c hl.1 hl.2
    have := ih (parseEventProperty (trimChars l) c) hrest
    simp [runLines, runState, hstep, this.1, this.2, foldProps]

/-- A complete well-formed block — a begin line, interior non-marker
lines, an end line — always runs to the finalize result of its interior,
from any machine state, and leaves the machine outside a block with a
fresh accumulator. -/
theorem run_block (bl el : List Char) (ps : List (List Char)) (b : Bool)
    (c : ICalEvent)
    (hbl : trimChars bl = "BEGIN:VEVENT".data)
    (hel : trimChars el = "END:VEVENT".data)
    (hps : ∀ l ∈ ps, trimChars l ≠ "BEGIN:VEVENT".data ∧
                     trimChars l ≠ "END:VEVENT".data) :
    runLines (bl :: (ps ++ [el])) b c = finalizeEvent (foldProps ps {}) ∧
    runState (bl :: (ps ++ [el])) b c = (false, {}) := by
  have hp := run_props ps {} hps
  have hstepE := stepLine_end el (foldProps ps {}) hel
  constructor
  · simp [runLines, stepLine_begin bl b c hbl, runLines_append,
          hp.1, hp.2, hstepE, runState]
  · simp [runState, stepLine_begin bl b c hbl, runState_append,
          hp.2, hstepE]

/-- Decomposition of a parse around one well-formed block: the block
contributes exactly its finalize result, between the parses of the
surrounding text, whatever state the preceding text left behind. -/
theorem parseLines_decompose (pre ps post : List (List Char))
    (bl el : List Char)
    (hbl : trimChars bl = "BEGIN:VEVENT".data)
    (hel : trimChars el = "END:VEVENT".data)
    (hps : ∀ l ∈ ps, trimChars l ≠ "BEGIN:VEVENT".data ∧
                     trimChars l ≠ "END:VEVENT".data) :
    parseLines (pre ++ bl :: (ps ++ el :: post)) =
      parseLines pre ++ finalizeEvent (foldProps ps {}) ++ parseLines post := by
  have hsplit : pre ++ bl :: (ps ++ el :: post) =
      pre ++ ((bl :: (ps ++ [el])) ++ post) := by simp
  have hb := run_block bl el ps (runState pre false {}).1
    (runState pre false {}).2 hbl hel hps
  rw [parseLines, hsplit, runLines_append, runLines_append,
      hb.1, hb.2, parseLines, parseLines]
  simp

/-- A trailing begin line followed only by non-marker lines — an
unterminated final block — contributes nothing. -/
theorem parseLines_unterminated (pre ps : List (List Char)) (bl : List Char)
    (hbl : trimChars bl = "BEGIN:VEVENT".data)
    (hps : ∀ l ∈ ps, trimChars l ≠ "BEGIN:VEVENT".data ∧
                     trimChars l ≠ "END:VEVENT".data) :
    parseLines (pre ++ bl :: ps) = parseLines pre := by
  have hp := run_props ps {} hps
  rw [parseLines, runLines_append, parseLines]
  simp [runLines, stepLine_begin bl _ _ hbl, hp.1]

/-! ### Whitespace congruence of the parse loop -/

theorem stepLine_congr (l l' : List Char) (b : Bool) (c : ICalEvent)
    (h : trimChars l = trimChars l') : stepLine l b c = stepLine l' b c := by
  simp only [stepLine, h]

theorem runLines_congr (ls ls' : List (List Char)) (b : Bool) (c : ICalEvent)
    (h : ls.map trimChars = ls'.map trimChars) :
    runLines ls b c = runLines ls' b c := by
  induction ls generalizing ls' b c with
  | nil =>
    have : ls' = [] := by simpa using h.symm
    subst this; rfl
  | cons l t ih =>
    cases ls' with
    | nil => simp at h
    | cons l' t' =>
      simp only [List.map_cons, List.cons.injEq] at h
      rw [runLines, runLines, stepLine_congr l l' b c h.1, ih t' _ _ h.2]

/-! ### Field invariants of parser-produced events -/

theorem createCalendarEvent_fields (acc : ICalEvent) (ev : CalendarEvent)
    (h : createCalendarEvent acc = some ev) :
    ev.source = some "ical".data ∧ ev.color = "#8b5cf6".data := by
  simp only [createCalendarEvent] at h
  cases hj : jsParseDate (acc.start.getD []) with
  | none => rw [hj] at h; simp at h
  | some st =>
    rw [hj] at h
    simp only [Option.some.injEq] at h
    subst h
    exact ⟨rfl, rfl⟩

theorem mem_finalizeEvent (c : ICalEvent) (ev : CalendarEvent)
    (h : ev ∈ finalizeEvent c) : createCalendarEvent c = some ev := by
  rw [finalizeEvent] at h
  split at h
  · cases hc : createCalendarEvent c with
    | none => rw [hc] at h; simp at h
    | some e => rw [hc] at h; simp at h; rw [h]
  · simp at h

theorem stepLine_fst (l : List Char) (b : Bool) (c : ICalEvent) :
    (stepLine l b c).1 = [] ∨ (stepLine l b c).1 = finalizeEvent c := by
  rw [stepLine]
  split_ifs <;> simp

theorem mem_runLines (ls : List (List Char)) (b : Bool) (c : ICalEvent)
    (ev : CalendarEvent) (h : ev ∈ runLines ls b c) :
    ∃ acc, createCalendarEvent acc = some ev := by
  induction ls generalizing b c with
  | nil => simp [runLines] at h
  | cons l t ih =>
    rw [runLines] at h
    rcases List.mem_append.1 h with h1 | h2
    · rcases stepLine_fst l b c with he | he
      · rw [he] at h1; simp at h1
      · rw [he] at h1; exact ⟨c, mem_finalizeEvent c ev h1⟩
    · exact ih _ _ h2

/-! ### Claim theorems -/

/-- C1 (code behavior at the failing input): the spec's own scenario —
a block with `SUMMARY:Lunch` and the standard UTC token
`DTSTART:20240315T120000Z` — yields NO event, because the extracted
token `20240315T120000Z` is 16 characters long while the reformatting
branch of `extractDateFromLine` requires `length === 15` (its comment
announces the 16-character `YYYYMMDDTHHMMSSZ` format): the token falls
through, the ISO fallback finds no dashes, the start stays unset, and
the block is discarded. -/
theorem c1_full_utc_token_dropped :
    parseICalData ("BEGIN:VEVENT\nSUMMARY:Lunch\nDTSTART:20240315T120000Z\nDTEND:20240315T130000Z\nLOCATION:Cafe\nEND:VEVENT".data) = [] ∧
    extractDateFromLine "DTSTART:20240315T120000Z".data = none ∧
    (findDateToken "DTSTART:20240315T120000Z".data).map List.length = some 16 := by
  refine ⟨by decide, by decide, by decide⟩

/-- C6: two refresh triggers less than 30 seconds apart produce exactly
one fetch+parse+store-mutation cycle. The first call (30 s or more past
the previous refresh) runs the cycle and records its time `t1`; the
second call at `t2 < t1 + 30000` returns with the ran-flag `false`, the
timestamp still `t1` and the store untouched, for ANY feed
configuration `feeds2` — it consults no feed, so no fetch, parse or
store mutation happens, and nothing is deferred. -/
theorem c6_throttle_single_cycle (t1 t2 lastRefresh : Int)
    (store : List CalendarEvent)
    (feeds feeds2 : List (Bool × Except (List Char) (List CalendarEvent)))
    (h1 : 30000 ≤ t1 - lastRefresh) (h2 : t1 ≤ t2) (h3 : t2 - t1 < 30000) :
    refreshAllCalendars t1 lastRefresh store feeds =
      (true, t1, refreshFeedsLoop (removeAllICalEvents store) feeds) ∧
    refreshAllCalendars t2 t1
        (refreshFeedsLoop (removeAllICalEvents store) feeds) feeds2 =
      (false, t1, refreshFeedsLoop (removeAllICalEvents store) feeds) := by
  constructor
  · rw [refreshAllCalendars, if_neg (by omega)]
  · rw [refreshAllCalendars, if_pos (by omega)]

theorem c6_throttle_single_cycle_witness :
    (30000 ≤ (50000 : Int) - 0) ∧ ((50000 : Int) ≤ 60000) ∧
      ((60000 : Int) - 50000 < 30000) ∧
    (refreshAllCalendars 50000 0 [] [] =
      (true, 50000, refreshFeedsLoop (removeAllICalEvents []) []) ∧
     refreshAllCalendars 60000 50000
        (refreshFeedsLoop (removeAllICalEvents []) []) [] =
      (false, 50000, refreshFeedsLoop (removeAllICalEvents []) [])) :=
  ⟨by decide, by decide, by decide,
   c6_throttle_single_cycle 50000 60000 0 [] [] []
     (by decide) (by decide) (by decide)⟩

/-- C8: in a multi-feed refresh batch, an enabled feed whose fetch or
parse throws is caught per-feed: the loop result is exactly what the
batch without the failing feed produces, so every subsequent enabled
feed is still fetched, parsed and inserted, and the batch completes (the
loop is a total function — the error never propagates). -/
theorem c8_per_feed_isolation (store : List CalendarEvent)
    (pre post : List (Bool × Except (List Char) (List CalendarEvent)))
    (msg : List Char) :
    refreshFeedsLoop store (pre ++ (true, Except.error msg) :: post) =
      refreshFeedsLoop (refreshFeedsLoop store pre) post ∧
    refreshFeedsLoop store (pre ++ (true, Except.error msg) :: post) =
      refreshFeedsLoop store (pre ++ post) := by
  constructor
  · simp [refreshFeedsLoop, List.foldl_append]
  · simp [refreshFeedsLoop, List.foldl_append]

/-- C9: `parseICalData` trims each line before any matching, so any two
texts whose lines agree up to leading/trailing JS whitespace (carriage
returns from CRLF endings included) parse identically; in particular a
marker line `BEGIN:VEVENT\r` is recognized. -/
theorem c9_whitespace_invariance (s t : List Char)
    (h : (splitNl s).map trimChars = (splitNl t).map trimChars) :
    parseICalData s = parseICalData t :=
  runLines_congr _ _ false {} h

theorem c9_whitespace_invariance_witness :
    ((splitNl "BEGIN:VEVENT\r\n  SUMMARY:A \nDTSTART:20240101\t\r\nEND:VEVENT\r".data).map trimChars =
      (splitNl "BEGIN:VEVENT\nSUMMARY:A\nDTSTART:20240101\nEND:VEVENT".data).map trimChars) ∧
    parseICalData "BEGIN:VEVENT\r\n  SUMMARY:A \nDTSTART:20240101\t\r\nEND:VEVENT\r".data =
      parseICalData "BEGIN:VEVENT\nSUMMARY:A\nDTSTART:20240101\nEND:VEVENT".data :=
  ⟨by decide, c9_whitespace_invariance _ _ (by decide)⟩

/-- C10: every event `parseICalData` produces carries `source = 'ical'`
and `color = '#8b5cf6'`, so it satisfies the `event.source === 'ical'`
predicate that scopes the delete-all-imported step of the next
reconciliation. -/
theorem c10_source_color_invariant (text : List Char) (ev : CalendarEvent)
    (h : ev ∈ parseICalData text) :
    ev.source = some "ical".data ∧ ev.color = "#8b5cf6".data ∧
    isImportedEvent ev = true := by
  obtain ⟨acc, hacc⟩ := mem_runLines (splitNl text) false {} ev h
  obtain ⟨hs, hc⟩ := createCalendarEvent_fields acc ev hacc
  exact ⟨hs, hc, by simp [isImportedEvent, hs]⟩

theorem c10_source_color_invariant_witness :
    ({ id := "ical_".data, title := "A".data, startDate := 1704067200000,
       endDate := some 1704070800000, allDay := true,
       color := "#8b5cf6".data, source := some "ical".data } : CalendarEvent) ∈
      parseICalData "BEGIN:VEVENT\nSUMMARY:A\nDTSTART:20240101\nEND:VEVENT".data ∧
    (({ id := "ical_".data, title := "A".data, startDate := 1704067200000,
        endDate := some 1704070800000, allDay := true,
        color := "#8b5cf6".data, source := some "ical".data } : CalendarEvent).source
        = some "ical".data ∧
     ({ id := "ical_".data, title := "A".data, startDate := 1704067200000,
        endDate := some 1704070800000, allDay := true,
        color := "#8b5cf6".data, source := some "ical".data } : CalendarEvent).color
        = "#8b5cf6".data ∧
     isImportedEvent
       { id := "ical_".data, title := "A".data, startDate := 1704067200000,
         endDate := some 1704070800000, allDay := true,
         color := "#8b5cf6".data, source := some "ical".data } = true) :=
  ⟨by decide,
   c10_source_color_invariant
     "BEGIN:VEVENT\nSUMMARY:A\nDTSTART:20240101\nEND:VEVENT".data
     { id := "ical_".data, title := "A".data, startDate := 1704067200000,
       endDate := some 1704070800000, allDay := true,
       color := "#8b5cf6".data, source := some "ical".data }
     (by decide)⟩

/-- C5: a delimited block whose property lines leave the accumulator
without a summary or without a successfully extracted start contributes
no event, whatever its other fields hold; the parse is total (no error)
and the surrounding text parses exactly as it would on its own. -/
theorem c5_malformed_block_dropped (text : List Char)
    (pre ps post : List (List Char)) (bl el : List Char)
    (hsplit : splitNl text = pre ++ bl :: (ps ++ el :: post))
    (hbl : trimChars bl = "BEGIN:VEVENT".data)
    (hel : trimChars el = "END:VEVENT".data)
    (hps : ∀ l ∈ ps, trimChars l ≠ "BEGIN:VEVENT".data ∧
                     trimChars l ≠ "END:VEVENT".data)
    (hmiss : (foldProps ps {}).summary = none ∨ (foldProps ps {}).start = none) :
    parseICalData text = parseLines pre ++ parseLines post := by
  rw [parseICalData, hsplit,
      parseLines_decompose pre ps post bl el hbl hel hps]
  have hfin : finalizeEvent (foldProps ps {}) = [] := by
    rcases hmiss with h | h <;> simp [finalizeEvent, truthy, h]
  rw [hfin]; simp

theorem c5_malformed_block_dropped_witness :
    (splitNl "BEGIN:VEVENT\nDTSTART:20240101\nEND:VEVENT\nBEGIN:VEVENT\nSUMMARY:B\nDTSTART:20240102\nEND:VEVENT".data =
      [] ++ "BEGIN:VEVENT".data ::
        (["DTSTART:20240101".data] ++ "END:VEVENT".data ::
          ["BEGIN:VEVENT".data, "SUMMARY:B".data, "DTSTART:20240102".data,
           "END:VEVENT".data])) ∧
    ((foldProps ["DTSTART:20240101".data] {}).summary = none) ∧
    parseICalData "BEGIN:VEVENT\nDTSTART:20240101\nEND:VEVENT\nBEGIN:VEVENT\nSUMMARY:B\nDTSTART:20240102\nEND:VEVENT".data =
      parseLines [] ++
        parseLines ["BEGIN:VEVENT".data, "SUMMARY:B".data,
                    "DTSTART:20240102".data, "END:VEVENT".data] :=
  ⟨by decide, by decide,
   c5_malformed_block_dropped
     "BEGIN:VEVENT\nDTSTART:20240101\nEND:VEVENT\nBEGIN:VEVENT\nSUMMARY:B\nDTSTART:20240102\nEND:VEVENT".data
     [] ["DTSTART:20240101".data]
     ["BEGIN:VEVENT".data, "SUMMARY:B".data, "DTSTART:20240102".data,
      "END:VEVENT".data]
     "BEGIN:VEVENT".data "END:VEVENT".data
     (by decide) (by decide) (by decide) (by decide) (Or.inl (by decide))⟩

/-- C7: an unterminated final block contributes zero events without an
error, and a `BEGIN:VEVENT` met while a block is open resets the
accumulator, so nothing captured for the unterminated block N survives
into the event of the following block N+1: the parse result does not
depend on the abandoned lines `ps` at all. -/
theorem c7_unterminated_and_reset :
    (∀ (text : List Char) (pre ps : List (List Char)) (bl : List Char),
      splitNl text = pre ++ bl :: ps →
      trimChars bl = "BEGIN:VEVENT".data →
      (∀ l ∈ ps, trimChars l ≠ "BEGIN:VEVENT".data ∧
                 trimChars l ≠ "END:VEVENT".data) →
      parseICalData text = parseLines pre) ∧
    (∀ (text : List Char) (pre ps qs post : List (List Char))
       (bl1 bl2 el : List Char),
      splitNl text = pre ++ bl1 :: (ps ++ bl2 :: (qs ++ el :: post)) →
      trimChars bl1 = "BEGIN:VEVENT".data →
      trimChars bl2 = "BEGIN:VEVENT".data →
      trimChars el = "END:VEVENT".data →
      (∀ l ∈ ps, trimChars l ≠ "BEGIN:VEVENT".data ∧
                 trimChars l ≠ "END:VEVENT".data) →
      (∀ l ∈ qs, trimChars l ≠ "BEGIN:VEVENT".data ∧
                 trimChars l ≠ "END:VEVENT".data) →
      parseICalData text =
        parseLines pre ++ finalizeEvent (foldProps qs {}) ++ parseLines post) := by
  constructor
  · intro text pre ps bl hsplit hbl hps
    rw [parseICalData, hsplit,
        parseLines_unterminated pre ps bl hbl hps]
  · intro text pre ps qs post bl1 bl2 el hsplit hbl1 hbl2 hel hps hqs
    have hassoc : pre ++ bl1 :: (ps ++ bl2 :: (qs ++ el :: post)) =
        (pre ++ bl1 :: ps) ++ bl2 :: (qs ++ el :: post) := by simp
    rw [parseICalData, hsplit, hassoc,
        parseLines_decompose (pre ++ bl1 :: ps) qs post bl2 el hbl2 hel hqs,
        parseLines_unterminated pre ps bl1 hbl1 hps]

theorem c7_unterminated_and_reset_witness :
    (splitNl "SUMMARY:ignored\nBEGIN:VEVENT\nSUMMARY:A\nDTSTART:20240101".data =
      ["SUMMARY:ignored".data] ++ "BEGIN:VEVENT".data ::
        ["SUMMARY:A".data, "DTSTART:20240101".data]) ∧
    parseICalData "SUMMARY:ignored\nBEGIN:VEVENT\nSUMMARY:A\nDTSTART:20240101".data =
      parseLines ["SUMMARY:ignored".data] ∧
    (splitNl "BEGIN:VEVENT\nSUMMARY:Lost\nBEGIN:VEVENT\nSUMMARY:B\nDTSTART:20240102\nEND:VEVENT".data =
      [] ++ "BEGIN:VEVENT".data ::
        (["SUMMARY:Lost".data] ++ "BEGIN:VEVENT".data ::
          (["SUMMARY:B".data, "DTSTART:20240102".data] ++
            "END:VEVENT".data :: []))) ∧
    parseICalData "BEGIN:VEVENT\nSUMMARY:Lost\nBEGIN:VEVENT\nSUMMARY:B\nDTSTART:20240102\nEND:VEVENT".data =
      parseLines [] ++
        finalizeEvent (foldProps ["SUMMARY:B".data, "DTSTART:20240102".data] {}) ++
        parseLines [] :=
  ⟨by decide,
   c7_unterminated_and_reset.1
     "SUMMARY:ignored\nBEGIN:VEVENT\nSUMMARY:A\nDTSTART:20240101".data
     ["SUMMARY:ignored".data] ["SUMMARY:A".data, "DTSTART:20240101".data]
     "BEGIN:VEVENT".data (by decide) (by decide) (by decide),
   by decide,
   c7_unterminated_and_reset.2
     "BEGIN:VEVENT\nSUMMARY:Lost\nBEGIN:VEVENT\nSUMMARY:B\nDTSTART:20240102\nEND:VEVENT".data
     [] ["SUMMARY:Lost".data] ["SUMMARY:B".data, "DTSTART:20240102".data] []
     "BEGIN:VEVENT".data "BEGIN:VEVENT".data "END:VEVENT".data
     (by decide) (by decide) (by decide) (by decide) (by decide) (by decide)⟩

/-! ### Reconciliation lemmas -/

theorem foldl_deleteEvent (del init : List CalendarEvent) :
    del.foldl (fun st e => deleteEvent st e.id) init =
      init.filter (fun x => del.all (fun e => x.id != e.id)) := by
  induction del generalizing init with
  | nil => simp
  | cons e t ih =>
    rw [List.foldl_cons, ih, deleteEvent, List.filter_filter]
    exact List.filter_congr (fun x _ => by rw [List.all_cons, Bool.and_comm])

/-- With pairwise distinct ids in the store, the delete phase removes
exactly the imported events. -/
theorem removeAllICalEvents_nodup (store : List CalendarEvent)
    (h : (store.map (fun e => e.id)).Nodup) :
    removeAllICalEvents store = store.filter (fun e => !isImportedEvent e) := by
  rw [removeAllICalEvents, foldl_deleteEvent]
  refine List.filter_congr (fun x hx => ?_)
  by_cases himp : isImportedEvent x = true
  · have hxm : x ∈ store.filter isImportedEvent := List.mem_filter.2 ⟨hx, himp⟩
    have hall : (store.filter isImportedEvent).all (fun e => x.id != e.id) = false := by
      rcases hb : (store.filter isImportedEvent).all (fun e => x.id != e.id)
      · rfl
      · exfalso
        have := List.all_eq_true.1 hb x hxm
        simp at this
    rw [hall, himp]
    rfl
  · have himp' : isImportedEvent x = false := by simpa using himp
    have hall : (store.filter isImportedEvent).all (fun e => x.id != e.id) = true := by
      refine List.all_eq_true.2 (fun e he => ?_)
      have hem := List.mem_filter.1 he
      have hne : x ≠ e := by
        intro hxe
        rw [hxe, hem.2] at himp'
        cases himp'
      exact bne_iff_ne.2 fun hide =>
        hne (List.inj_on_of_nodup_map h hx hem.1 hide)
    rw [hall, himp']
    rfl

theorem foldl_addEvent (evs st : List CalendarEvent) :
    evs.foldl addEvent st = st ++ evs := by
  induction evs generalizing st with
  | nil => simp
  | cons e t ih => simp [List.foldl_cons, addEvent, ih]

/-- The feed loop appends exactly the events of the enabled successful
feeds, in feed order. -/
theorem refreshFeedsLoop_eq (store : List CalendarEvent)
    (feeds : List (Bool × Except (List Char) (List CalendarEvent))) :
    refreshFeedsLoop store feeds = store ++ enabledOkEvents feeds := by
  induction feeds generalizing store with
  | nil => simp [refreshFeedsLoop, enabledOkEvents]
  | cons f t ih =>
    obtain ⟨en, res⟩ := f
    cases en with
    | false =>
      have h1 : refreshFeedsLoop store ((false, res) :: t) =
          refreshFeedsLoop store t := rfl
      have h2 : enabledOkEvents ((false, res) :: t) = enabledOkEvents t := by
        simp [enabledOkEvents]
      rw [h1, h2, ih]
    | true =>
      cases res with
      | ok evs =>
        have h1 : refreshFeedsLoop store ((true, Except.ok evs) :: t) =
            refreshFeedsLoop (store ++ evs) t := by
          show refreshFeedsLoop (evs.foldl addEvent store) t = _
          rw [foldl_addEvent]
        have h2 : enabledOkEvents ((true, Except.ok evs) :: t) =
            evs ++ enabledOkEvents t := by
          simp [enabledOkEvents]
        rw [h1, h2, ih, List.append_assoc]
      | error msg =>
        have h1 : refreshFeedsLoop store ((true, Except.error msg) :: t) =
            refreshFeedsLoop store t := rfl
        have h2 : enabledOkEvents ((true, Except.error msg) :: t) =
            enabledOkEvents t := by
          simp [enabledOkEvents]
        rw [h1, h2, ih]

/-- C2: one (throttle-passing) refresh over a store with pairwise
distinct ids, whose feed results contribute `K = (enabledOkEvents
feeds).length` imported-origin events, leaves the store holding exactly
those K imported events — however many imported events (N) it held
before — while the events of other origins (M of them) pass through
unchanged, in order. -/
theorem c2_reconciliation (now lastRefresh : Int) (store : List CalendarEvent)
    (feeds : List (Bool × Except (List Char) (List CalendarEvent)))
    (ht : 30000 ≤ now - lastRefresh)
    (hid : (store.map (fun e => e.id)).Nodup)
    (himp : ∀ ev ∈ enabledOkEvents feeds, isImportedEvent ev = true) :
    ((refreshAllCalendars now lastRefresh store feeds).2.2).filter isImportedEvent =
      enabledOkEvents feeds ∧
    ((refreshAllCalendars now lastRefresh store feeds).2.2).filter
        (fun e => !isImportedEvent e) =
      store.filter (fun e => !isImportedEvent e) := by
  rw [refreshAllCalendars, if_neg (by omega)]
  dsimp only
  rw [refreshFeedsLoop_eq, removeAllICalEvents_nodup store hid]
  constructor
  · rw [List.filter_append]
    have h1 : (store.filter (fun e => !isImportedEvent e)).filter isImportedEvent
        = [] := by
      rw [List.filter_eq_nil_iff]
      intro a ha
      have h := (List.mem_filter.1 ha).2
      simp only [Bool.not_eq_true'] at h
      simp [h]
    have h2 : (enabledOkEvents feeds).filter isImportedEvent =
        enabledOkEvents feeds :=
      List.filter_eq_self.2 himp
    rw [h1, h2, List.nil_append]
  · rw [List.filter_append]
    have h1 : (store.filter (fun e => !isImportedEvent e)).filter
        (fun e => !isImportedEvent e) = store.filter (fun e => !isImportedEvent e) :=
      List.filter_eq_self.2 (fun a ha => (List.mem_filter.1 ha).2)
    have h2 : (enabledOkEvents feeds).filter (fun e => !isImportedEvent e) = [] := by
      rw [List.filter_eq_nil_iff]
      intro a ha
      simp [himp a ha]
    rw [h1, h2, List.append_nil]

/-- Concrete locally created event used to instantiate C2. -/
def sampleLocalEvent : CalendarEvent :=
  { id := "L1".data, title := "Local".data, startDate := 0,
    endDate := some 1, allDay := false, color := "#10b981".data,
    source := some "local".data }

/-- Concrete previously imported event used to instantiate C2. -/
def sampleOldImport : CalendarEvent :=
  { id := "I1".data, title := "Old".data, startDate := 0,
    endDate := some 1, allDay := false, color := "#8b5cf6".data,
    source := some "ical".data }

/-- Concrete freshly parsed event used to instantiate C2. -/
def sampleNewImport : CalendarEvent :=
  { id := "ical_".data, title := "New".data, startDate := 5,
    endDate := some 6, allDay := false, color := "#8b5cf6".data,
    source := some "ical".data }

/-- Concrete single-feed batch used to instantiate C2. -/
def sampleFeeds : List (Bool × Except (List Char) (List CalendarEvent)) :=
  [(true, Except.ok [sampleNewImport])]

theorem c2_reconciliation_witness :
    (30000 ≤ (40000 : Int) - 0) ∧
    (([sampleLocalEvent, sampleOldImport].map (fun e => e.id)).Nodup) ∧
    (∀ ev ∈ enabledOkEvents sampleFeeds, isImportedEvent ev = true) ∧
    (((refreshAllCalendars 40000 0 [sampleLocalEvent, sampleOldImport]
        sampleFeeds).2.2).filter isImportedEvent = enabledOkEvents sampleFeeds ∧
     ((refreshAllCalendars 40000 0 [sampleLocalEvent, sampleOldImport]
        sampleFeeds).2.2).filter (fun e => !isImportedEvent e) =
      [sampleLocalEvent, sampleOldImport].filter (fun e => !isImportedEvent e)) :=
  ⟨by decide, by decide, by decide,
   c2_reconciliation 40000 0 [sampleLocalEvent, sampleOldImport] sampleFeeds
     (by decide) (by decide) (by decide)⟩

/-! ### Symbolic evaluation of one block with SUMMARY and an 8-digit DTSTART -/

theorem digit_beq_false (c d : Char) (hc : isDigitChar c = true)
    (hd : isDigitChar d = false) : (c == d) = false := by
  cases hb : c == d
  · rfl
  · exfalso
    rw [eq_of_beq hb, hd] at hc
    cases hc

theorem cons_ne_of_head (a b : Char) (xs ys : List Char) (h : ¬ a = b) :
    a :: xs ≠ b :: ys := by
  intro hc
  injection hc with h1 _
  exact h h1

theorem extractDateFromLine_dtstart8 (a1 a2 a3 a4 a5 a6 a7 a8 : Char)
    (h1 : isDigitChar a1 = true) (h2 : isDigitChar a2 = true)
    (h3 : isDigitChar a3 = true) (h4 : isDigitChar a4 = true)
    (h5 : isDigitChar a5 = true) (h6 : isDigitChar a6 = true)
    (h7 : isDigitChar a7 = true) (h8 : isDigitChar a8 = true) :
    extractDateFromLine ("DTSTART:".data ++ [a1, a2, a3, a4, a5, a6, a7, a8]) =
      some [a1, a2, a3, a4, '-', a5, a6, '-', a7, a8] := by
  simp only [isDigitChar, decide_eq_true_eq] at h1 h2 h3 h4 h5 h6 h7 h8
  show extractDateFromLine
      ('D' :: 'T' :: 'S' :: 'T' :: 'A' :: 'R' :: 'T' :: ':' ::
        [a1, a2, a3, a4, a5, a6, a7, a8]) = _
  simp [extractDateFromLine, findDateToken, matchDateToken, takeDigitsUpTo,
        isDigitChar, h1, h2, h3, h4, h5, h6, h7, h8]

theorem parseEventProperty_summary (x : List Char) (acc : ICalEvent) :
    parseEventProperty ("SUMMARY:".data ++ x) acc =
      { acc with summary := some (unescapeText x) } := by
  show parseEventProperty
      ('S' :: 'U' :: 'M' :: 'M' :: 'A' :: 'R' :: 'Y' :: ':' :: x) _ = _
  simp [parseEventProperty, List.isPrefixOf]

theorem parseEventProperty_dtstart8 (a1 a2 a3 a4 a5 a6 a7 a8 : Char)
    (acc : ICalEvent)
    (h1 : isDigitChar a1 = true) (h2 : isDigitChar a2 = true)
    (h3 : isDigitChar a3 = true) (h4 : isDigitChar a4 = true)
    (h5 : isDigitChar a5 = true) (h6 : isDigitChar a6 = true)
    (h7 : isDigitChar a7 = true) (h8 : isDigitChar a8 = true) :
    parseEventProperty ("DTSTART:".data ++ [a1, a2, a3, a4, a5, a6, a7, a8]) acc =
      { acc with start := some [a1, a2, a3, a4, '-', a5, a6, '-', a7, a8],
                 allDay := some true } := by
  have hx2 : extractDateFromLine
      ['D', 'T', 'S', 'T', 'A', 'R', 'T', ':', a1, a2, a3, a4, a5, a6, a7, a8] =
      some [a1, a2, a3, a4, '-', a5, a6, '-', a7, a8] :=
    extractDateFromLine_dtstart8 a1 a2 a3 a4 a5 a6 a7 a8 h1 h2 h3 h4 h5 h6 h7 h8
  show parseEventProperty
      ('D' :: 'T' :: 'S' :: 'T' :: 'A' :: 'R' :: 'T' :: ':' ::
        [a1, a2, a3, a4, a5, a6, a7, a8]) _ = _
  rw [parseEventProperty]
  simp only [List.isPrefixOf]
  simp only [show (('S' : Char) == 'D') = false from rfl, Bool.false_and,
             Bool.and_false]
  simp [hx2, containsChar,
        digit_beq_false a1 'T' h1 rfl, digit_beq_false a2 'T' h2 rfl,
        digit_beq_false a3 'T' h3 rfl, digit_beq_false a4 'T' h4 rfl,
        digit_beq_false a5 'T' h5 rfl, digit_beq_false a6 'T' h6 rfl,
        digit_beq_false a7 'T' h7 rfl, digit_beq_false a8 'T' h8 rfl]

theorem jsParseDate_dateOnly (a1 a2 a3 a4 a5 a6 a7 a8 : Char)
    (h1 : isDigitChar a1 = true) (h2 : isDigitChar a2 = true)
    (h3 : isDigitChar a3 = true) (h4 : isDigitChar a4 = true)
    (h5 : isDigitChar a5 = true) (h6 : isDigitChar a6 = true)
    (h7 : isDigitChar a7 = true) (h8 : isDigitChar a8 = true)
    (hm : 1 ≤ val2 a5 a6 ∧ val2 a5 a6 ≤ 12)
    (hd : 1 ≤ val2 a7 a8 ∧
          val2 a7 a8 ≤ daysInMonth (val4 a1 a2 a3 a4) (val2 a5 a6)) :
    jsParseDate [a1, a2, a3, a4, '-', a5, a6, '-', a7, a8] =
      some (daysFromCivil (val4 a1 a2 a3 a4) (val2 a5 a6) (val2 a7 a8) *
        86400000) := by
  simp [jsParseDate, h1, h2, h3, h4, h5, h6, h7, h8, hm.1, hm.2, hd.1, hd.2]

/-- C3 counterexample: a finalized block whose DTEND captured a value
(`9999-99-99`, extracted from `DTEND:99999999`) that `new Date` cannot
parse. The claim demands `endDate = startDate + 1 hour` in this case;
the code instead stores the Invalid Date produced by
`new Date('9999-99-99')`, because it only tests `icalEvent.end` for
presence, never for parseability. -/
theorem c3_end_date_counterexample :
    ∃ ev, parseICalData "BEGIN:VEVENT\nSUMMARY:x\nDTSTART:20240315\nDTEND:99999999\nEND:VEVENT".data = [ev] ∧
      (foldProps ["DTSTART:20240315".data, "DTEND:99999999".data] {}).endRaw =
        some "9999-99-99".data ∧
      jsParseDate "9999-99-99".data = none ∧
      ev.endDate = none ∧
      ev.endDate ≠ some (ev.startDate + 60 * 60 * 1000) :=
  ⟨{ id := "ical_".data, title := "x".data, startDate := 1710460800000,
     endDate := none, allDay := true, description := none, location := none,
     color := "#8b5cf6".data, source := some "ical".data },
   by decide, by decide, by decide, by decide, by decide⟩

/-- C3 (amended): for a finalized event with a parseable start, `endDate`
equals the parsed DTEND when the captured DTEND value is present and
parseable, and `startDate + 1 hour` exactly when no DTEND value was
captured; when a DTEND value is present but not parseable, `endDate` is
the Invalid Date result of parsing it (`none`), not `startDate + 1
hour`. -/
theorem c3_end_date_amended (icalEvent : ICalEvent) (s : List Char) (ts : Int)
    (hs : icalEvent.start = some s) (hts : jsParseDate s = some ts) :
    (icalEvent.endRaw = none →
      ∃ ev, createCalendarEvent icalEvent = some ev ∧
            ev.endDate = some (ts + 60 * 60 * 1000)) ∧
    (∀ e, icalEvent.endRaw = some e →
      ∃ ev, createCalendarEvent icalEvent = some ev ∧
            ev.endDate = jsParseDate e) := by
  have hgd : icalEvent.start.getD [] = s := by rw [hs]; rfl
  constructor
  · intro hend
    refine ⟨{ id := "ical_".data, title := icalEvent.summary.getD [],
              startDate := ts, endDate := some (ts + 60 * 60 * 1000),
              allDay := icalEvent.allDay.getD false,
              description := icalEvent.description,
              location := icalEvent.location, color := "#8b5cf6".data,
              source := some "ical".data }, ?_, rfl⟩
    simp [createCalendarEvent, hgd, hts, hend]
  · intro e hend
    refine ⟨{ id := "ical_".data, title := icalEvent.summary.getD [],
              startDate := ts, endDate := jsParseDate e,
              allDay := icalEvent.allDay.getD false,
              description := icalEvent.description,
              location := icalEvent.location, color := "#8b5cf6".data,
              source := some "ical".data }, ?_, rfl⟩
    simp [createCalendarEvent, hgd, hts, hend]

theorem c3_end_date_amended_witness :
    ({ summary := some ['x'], start := some "2024-03-15".data } : ICalEvent).start = some "2024-03-15".data ∧
    jsParseDate "2024-03-15".data = some 1710460800000 ∧
    ((({ summary := some ['x'], start := some "2024-03-15".data } : ICalEvent).endRaw = none →
      ∃ ev, createCalendarEvent { summary := some ['x'], start := some "2024-03-15".data } = some ev ∧
            ev.endDate = some (1710460800000 + 60 * 60 * 1000)) ∧
     (∀ e, ({ summary := some ['x'], start := some "2024-03-15".data } : ICalEvent).endRaw = some e →
      ∃ ev, createCalendarEvent { summary := some ['x'], start := some "2024-03-15".data } = some ev ∧
            ev.endDate = jsParseDate e)) :=
  ⟨rfl, by decide,
   c3_end_date_amended { summary := some ['x'], start := some "2024-03-15".data }
     "2024-03-15".data 1710460800000 rfl (by decide)⟩

/-- Property lines that do not start with `DTSTART` never touch the
accumulator's `start` or `allDay` fields. -/
theorem parseEventProperty_no_dtstart (l : List Char) (a : ICalEvent)
    (h : "DTSTART".data.isPrefixOf l = false) :
    (parseEventProperty l a).start = a.start ∧
    (parseEventProperty l a).allDay = a.allDay := by
  rw [parseEventProperty]
  split_ifs with h1 h2 h3 h4 h5
  · exact ⟨rfl, rfl⟩
  · rw [h] at h2; cases h2
  · cases hx : extractDateFromLine l <;> simp [hx]
  · exact ⟨rfl, rfl⟩
  · exact ⟨rfl, rfl⟩
  · exact ⟨rfl, rfl⟩

theorem foldProps_append (as bs : List (List Char)) (a : ICalEvent) :
    foldProps (as ++ bs) a = foldProps bs (foldProps as a) := by
  rw [foldProps, foldProps, foldProps, List.foldl_append]

/-- Folding lines none of which starts with `DTSTART` (after trimming)
preserves `start` and `allDay`. -/
theorem foldProps_preserves_start (ls : List (List Char)) (a : ICalEvent)
    (h : ∀ l ∈ ls, "DTSTART".data.isPrefixOf (trimChars l) = false) :
    (foldProps ls a).start = a.start ∧ (foldProps ls a).allDay = a.allDay := by
  induction ls generalizing a with
  | nil => exact ⟨rfl, rfl⟩
  | cons l t ih =>
    have hl := h l (List.mem_cons_self l t)
    have hp := parseEventProperty_no_dtstart (trimChars l) a hl
    have ht := ih (parseEventProperty (trimChars l) a)
      (fun x hx => h x (List.mem_cons_of_mem l hx))
    have hstep : foldProps (l :: t) a =
        foldProps t (parseEventProperty (trimChars l) a) := rfl
    rw [hstep]
    exact ⟨ht.1.trans hp.1, ht.2.trans hp.2⟩

/-- An accumulator whose start parses produces an event carrying that
timestamp and the accumulator's all-day flag (defaulted to `false`). -/
theorem createCalendarEvent_valid_start (acc : ICalEvent) (s : List Char)
    (ts : Int) (hs : acc.start = some s) (hj : jsParseDate s = some ts) :
    ∃ ev, createCalendarEvent acc = some ev ∧ ev.startDate = ts ∧
      ev.allDay = acc.allDay.getD false := by
  have hgd : acc.start.getD [] = s := by rw [hs]; rfl
  refine ⟨{ id := "ical_".data, title := acc.summary.getD [],
            startDate := ts,
            endDate := (match acc.endRaw with
                        | some e => jsParseDate e
                        | none => some (ts + 60 * 60 * 1000)),
            allDay := acc.allDay.getD false,
            description := acc.description, location := acc.location,
            color := "#8b5cf6".data, source := some "ical".data },
         ?_, rfl, rfl⟩
  simp [createCalendarEvent, hgd, hj]

theorem finalizeEvent_of_truthy (acc : ICalEvent) (ev : CalendarEvent)
    (hsum : truthy acc.summary = true) (hst : truthy acc.start = true)
    (hc : createCalendarEvent acc = some ev) : finalizeEvent acc = [ev] := by
  simp [finalizeEvent, hsum, hst, hc]

/-- C4: every delimited block whose property lines include a DTSTART
line with a value of exactly eight digits (denoting a calendar-valid
`YYYYMMDD` date), not overridden by a later DTSTART line, and whose
accumulated summary is truthy (the block "has a summary"), contributes
exactly one event, with `allDay = true` and a date-only start: the
extracted value is the reformatted `YYYY-MM-DD` and the start timestamp
is a UTC midnight (divisible by 86400000 ms/day). The other interior
lines `ps1` (before DTSTART) and `ps2` (after) are arbitrary non-marker
lines — DTEND, DESCRIPTION, LOCATION, unrecognized lines, a SUMMARY
before or after DTSTART. -/
theorem c4_eight_digit_all_day (text : List Char)
    (pre post ps1 ps2 : List (List Char)) (bl dl el : List Char)
    (a1 a2 a3 a4 a5 a6 a7 a8 : Char)
    (hsplit : splitNl text = pre ++ bl :: ((ps1 ++ dl :: ps2) ++ el :: post))
    (hbl : trimChars bl = "BEGIN:VEVENT".data)
    (hel : trimChars el = "END:VEVENT".data)
    (hdl : trimChars dl = "DTSTART:".data ++ [a1, a2, a3, a4, a5, a6, a7, a8])
    (hps1 : ∀ l ∈ ps1, trimChars l ≠ "BEGIN:VEVENT".data ∧
                       trimChars l ≠ "END:VEVENT".data)
    (hps2 : ∀ l ∈ ps2, (trimChars l ≠ "BEGIN:VEVENT".data ∧
                        trimChars l ≠ "END:VEVENT".data) ∧
                       "DTSTART".data.isPrefixOf (trimChars l) = false)
    (hsum : truthy (foldProps (ps1 ++ dl :: ps2) {}).summary = true)
    (h1 : isDigitChar a1 = true) (h2 : isDigitChar a2 = true)
    (h3 : isDigitChar a3 = true) (h4 : isDigitChar a4 = true)
    (h5 : isDigitChar a5 = true) (h6 : isDigitChar a6 = true)
    (h7 : isDigitChar a7 = true) (h8 : isDigitChar a8 = true)
    (hm : 1 ≤ val2 a5 a6 ∧ val2 a5 a6 ≤ 12)
    (hd : 1 ≤ val2 a7 a8 ∧
          val2 a7 a8 ≤ daysInMonth (val4 a1 a2 a3 a4) (val2 a5 a6)) :
    ∃ ev, parseICalData text = parseLines pre ++ [ev] ++ parseLines post ∧
      ev.allDay = true ∧
      ev.startDate = daysFromCivil (val4 a1 a2 a3 a4) (val2 a5 a6)
        (val2 a7 a8) * 86400000 ∧
      ev.startDate % 86400000 = 0 ∧
      extractDateFromLine (trimChars dl) =
        some [a1, a2, a3, a4, '-', a5, a6, '-', a7, a8] := by
  have hdlb : trimChars dl ≠ "BEGIN:VEVENT".data := by
    rw [hdl]
    exact cons_ne_of_head 'D' 'B'
      ("TSTART:".data ++ [a1, a2, a3, a4, a5, a6, a7, a8]) "EGIN:VEVENT".data
      (by decide)
  have hdle : trimChars dl ≠ "END:VEVENT".data := by
    rw [hdl]
    exact cons_ne_of_head 'D' 'E'
      ("TSTART:".data ++ [a1, a2, a3, a4, a5, a6, a7, a8]) "ND:VEVENT".data
      (by decide)
  have hall : ∀ l ∈ ps1 ++ dl :: ps2, trimChars l ≠ "BEGIN:VEVENT".data ∧
      trimChars l ≠ "END:VEVENT".data := by
    intro l hl
    rcases List.mem_append.1 hl with h | h
    · exact hps1 l h
    · rcases List.mem_cons.1 h with h' | h'
      · subst h'; exact ⟨hdlb, hdle⟩
      · exact (hps2 l h').1
  have haccsplit : foldProps (ps1 ++ dl :: ps2) {} =
      foldProps ps2 (parseEventProperty (trimChars dl) (foldProps ps1 {})) := by
    rw [foldProps_append]; rfl
  have hdlset : parseEventProperty (trimChars dl) (foldProps ps1 {}) =
      { foldProps ps1 {} with
          start := some [a1, a2, a3, a4, '-', a5, a6, '-', a7, a8],
          allDay := some true } := by
    rw [hdl]
    exact parseEventProperty_dtstart8 a1 a2 a3 a4 a5 a6 a7 a8 _
      h1 h2 h3 h4 h5 h6 h7 h8
  have hpres := foldProps_preserves_start ps2
    { foldProps ps1 {} with
        start := some [a1, a2, a3, a4, '-', a5, a6, '-', a7, a8],
        allDay := some true }
    (fun l hl => (hps2 l hl).2)
  have hstart : (foldProps (ps1 ++ dl :: ps2) {}).start =
      some [a1, a2, a3, a4, '-', a5, a6, '-', a7, a8] := by
    rw [haccsplit, hdlset, hpres.1]
  have hallday : (foldProps (ps1 ++ dl :: ps2) {}).allDay = some true := by
    rw [haccsplit, hdlset, hpres.2]
  have hj := jsParseDate_dateOnly a1 a2 a3 a4 a5 a6 a7 a8
    h1 h2 h3 h4 h5 h6 h7 h8 hm hd
  obtain ⟨ev, hev, hevs, heva⟩ :=
    createCalendarEvent_valid_start (foldProps (ps1 ++ dl :: ps2) {})
      [a1, a2, a3, a4, '-', a5, a6, '-', a7, a8]
      (daysFromCivil (val4 a1 a2 a3 a4) (val2 a5 a6) (val2 a7 a8) * 86400000)
      hstart hj
  have hst : truthy (foldProps (ps1 ++ dl :: ps2) {}).start = true := by
    rw [hstart]; rfl
  have hfin := finalizeEvent_of_truthy _ ev hsum hst hev
  refine ⟨ev, ?_, ?_, hevs, ?_, ?_⟩
  · rw [parseICalData, hsplit,
        parseLines_decompose pre (ps1 ++ dl :: ps2) post bl el hbl hel hall,
        hfin]
  · rw [heva, hallday]; rfl
  · rw [hevs]; exact Int.mul_emod_left _ _
  · rw [hdl]
    exact extractDateFromLine_dtstart8 a1 a2 a3 a4 a5 a6 a7 a8
      h1 h2 h3 h4 h5 h6 h7 h8

theorem c4_eight_digit_all_day_witness :
    (splitNl "BEGIN:VEVENT\nLOCATION:Home\nDTSTART:20240101\nSUMMARY:New Year\nDTEND:20240102\nEND:VEVENT".data =
      [] ++ "BEGIN:VEVENT".data ::
        ((["LOCATION:Home".data] ++ "DTSTART:20240101".data ::
           ["SUMMARY:New Year".data, "DTEND:20240102".data]) ++
          "END:VEVENT".data :: [])) ∧
    (truthy (foldProps
        (["LOCATION:Home".data] ++ "DTSTART:20240101".data ::
          ["SUMMARY:New Year".data, "DTEND:20240102".data]) {}).summary
      = true) ∧
    (1 ≤ val2 '0' '1' ∧ val2 '0' '1' ≤ 12) ∧
    (∃ ev, parseICalData "BEGIN:VEVENT\nLOCATION:Home\nDTSTART:20240101\nSUMMARY:New Year\nDTEND:20240102\nEND:VEVENT".data =
        parseLines [] ++ [ev] ++ parseLines [] ∧
      ev.allDay = true ∧
      ev.startDate = daysFromCivil (val4 '2' '0' '2' '4') (val2 '0' '1')
        (val2 '0' '1') * 86400000 ∧
      ev.startDate % 86400000 = 0 ∧
      extractDateFromLine (trimChars "DTSTART:20240101".data) =
        some ['2', '0', '2', '4', '-', '0', '1', '-', '0', '1']) :=
  ⟨by decide, by decide, by decide,
   c4_eight_digit_all_day
     "BEGIN:VEVENT\nLOCATION:Home\nDTSTART:20240101\nSUMMARY:New Year\nDTEND:20240102\nEND:VEVENT".data
     [] [] ["LOCATION:Home".data]
     ["SUMMARY:New Year".data, "DTEND:20240102".data]
     "BEGIN:VEVENT".data "DTSTART:20240101".data "END:VEVENT".data
     '2' '0' '2' '4' '0' '1' '0' '1'
     (by decide) (by decide) (by decide) (by decide) (by decide) (by decide)
     (by decide) (by decide) (by decide) (by decide) (by decide) (by decide)
     (by decide) (by decide) (by decide) (by decide) (by decide)⟩

end FamilyCalendar
